import Mathlib

/-!
Verification of the notify_postgres event-distribution core.

The definitions below are a shallow embedding of the Python sources:
`services/notification-engine/unified_system.py` (UnifiedNotificationSystem,
MultiTenantInteractionManager) and `notification_system.py`. Pure routing
logic becomes Lean functions; the background listen thread becomes an
explicit small-step machine; fallible database calls take an explicit
failure oracle and return an `Except` value.
-/

namespace NotifyPostgres

/-- A sink is the opaque socketio backend handle stored in
`backend_connections`; we identify handles by a label. -/
abbrev Sink := String

/-- A parsed JSON object: association list of field name to field value.
`json.loads` yields unique keys, so first-match lookup is faithful. -/
abbrev FieldMap := List (String × String)

/-- Lookup of a field in a parsed object, mirroring `data.get(key)`. -/
def FieldMap.get (fields : FieldMap) (key : String) : Option String :=
  match fields with
  | [] => none
  | (k, v) :: rest => if k = key then some v else FieldMap.get rest key

/-- The payload of a notification: either text that `json.loads` rejects
(raising `JSONDecodeError`), or a successfully parsed object. -/
inductive Payload where
  | malformed (raw : String)
  | object (fields : FieldMap)
deriving DecidableEq, Repr

/-- A raw notification as delivered by psycopg2: channel name plus payload. -/
structure Notification where
  channel : String
  payload : Payload
deriving DecidableEq, Repr

/-- The company code extracted by `data.get('company')` followed by the
Python truthiness test `if not company_code`: absent or empty string both
count as missing. -/
def companyField (fields : FieldMap) : Option String :=
  match FieldMap.get fields "company" with
  | none => none
  | some s => if s = "" then none else some s

/-- Tenant of a notification, when its payload decodes and carries one. -/
def companyOf (n : Notification) : Option String :=
  match n.payload with
  | .malformed _ => none
  | .object fields => companyField fields

/-- The subscriber registry `backend_connections`, a dict from company code
to the single registered backend handle. -/
abbrev Registry := String → Option Sink

/-- The initial empty dict. -/
def emptyRegistry : Registry := fun _ => none

/-- `register_backend`: dict assignment `backend_connections[code] = sink`. -/
def registerBackend (reg : Registry) (companyCode : String) (sink : Sink) : Registry :=
  fun c => if c = companyCode then some sink else reg c

/-- `unregister_backend`: delete the key only when present, mirroring
`if company_code in self.backend_connections: del ...`. -/
def unregisterBackend (reg : Registry) (companyCode : String) : Registry :=
  match reg companyCode with
  | some _ => fun c => if c = companyCode then none else reg c
  | none => reg

/-- The set of sinks currently registered for a tenant (the dict holds at
most one entry per key, so this list has length at most one). -/
def sinksFor (reg : Registry) (companyCode : String) : List Sink :=
  (reg companyCode).toList

/-- One socket emit performed by `_handle_notification`. -/
structure Push where
  sink : Sink
  event : String
  data : FieldMap
deriving DecidableEq, Repr

/-- The log records `_handle_notification` produces. -/
inductive LogEntry where
  | invalidJson (raw : String)
  | missingCompany
  | noBackend (company : String)
  | routed (event : String) (company : String)
deriving DecidableEq, Repr

/-- `UnifiedNotificationSystem._handle_notification`: parse the payload,
extract the company code, and route to the registered backend by channel.
All failure branches are caught inside the method, so the embedding is a
total function returning the emits and log records it performs. -/
def handleNotification (reg : Registry) (n : Notification) : List Push × List LogEntry :=
  match n.payload with
  | .malformed raw => ([], [LogEntry.invalidJson raw])
  | .object fields =>
    match companyField fields with
    | none => ([], [LogEntry.missingCompany])
    | some companyCode =>
      match reg companyCode with
      | some backend =>
        if n.channel = "interaction_changes" then
          ([⟨backend, "new_engagement", fields⟩],
           [LogEntry.routed "new_engagement" companyCode])
        else if n.channel = "status_changes" then
          ([⟨backend, "status_update", fields⟩],
           [LogEntry.routed "status_update" companyCode])
        else ([], [])
      | none => ([], [LogEntry.noBackend companyCode])

/-- The inner drain loop of `_listen_loop`: pop notifications in FIFO order
and handle each, accumulating emits and log records in order. -/
def processNotifications (reg : Registry) : List Notification → List Push × List LogEntry
  | [] => ([], [])
  | n :: rest =>
    let handled := handleNotification reg n
    let tail := processNotifications reg rest
    (handled.1 ++ tail.1, handled.2 ++ tail.2)

/-- The event name emitted for a channel, read off the if/elif ladder in
`_handle_notification`; unrecognized channels emit nothing. -/
def eventNameFor (channel : String) : Option String :=
  if channel = "interaction_changes" then some "new_engagement"
  else if channel = "status_changes" then some "status_update"
  else none

/-- The sub-sequence of pushes delivered to one particular sink. -/
def pushesTo (s : Sink) (ps : List Push) : List Push :=
  ps.filter (fun p => p.sink == s)

/-- Whether a notification carries tenant `t`. -/
def relevantTo (t : String) (n : Notification) : Bool :=
  companyOf n == some t

/-! ## Lifecycle supervisor: transcript semantics of `_listen_loop`

`UnifiedNotificationSystem._listen_loop` connects, executes `LISTEN` on both
channels, then loops polling; any exception is caught, and while `running`
the loop sleeps five seconds and restarts itself (fresh connect plus
re-subscribe). We model a run in which `running` stays true by a script of
poll outcomes and record the externally visible actions in a trace. -/

/-- One outcome of a poll iteration: a batch of notifications, or an
exception raised out of the loop body. -/
inductive PollEvent where
  | notes (ns : List Notification)
  | error (msg : String)
deriving DecidableEq, Repr

/-- Externally visible actions of the listen loop. -/
inductive TraceItem where
  | connect (channels : List String)
  | push (p : Push)
  | log (l : LogEntry)
  | backoff (seconds : Nat)
deriving DecidableEq, Repr

/-- The two channels the loop subscribes to, in source order. -/
def listenChannels : List String := ["interaction_changes", "status_changes"]

/-- Trace of handling one notification: its emits then its log records. -/
def notificationTrace (reg : Registry) (n : Notification) : List TraceItem :=
  (handleNotification reg n).1.map TraceItem.push
    ++ (handleNotification reg n).2.map TraceItem.log

/-- Trace of draining one poll batch in FIFO order. -/
def pollTrace (reg : Registry) : List Notification → List TraceItem
  | [] => []
  | n :: rest => notificationTrace reg n ++ pollTrace reg rest

/-- Trace of the loop consuming a script while `running` holds: a batch is
drained; an exception triggers `time.sleep(5)` and then the recursive
restart `self._listen_loop()`, which reconnects and re-subscribes to the
full channel set before continuing. The registry is not touched by the
error path. -/
def listenLoopTrace (reg : Registry) : List PollEvent → List TraceItem
  | [] => []
  | .notes ns :: rest => pollTrace reg ns ++ listenLoopTrace reg rest
  | .error _ :: rest =>
      TraceItem.backoff 5 :: TraceItem.connect listenChannels
        :: listenLoopTrace reg rest

/-- A full invocation of `_listen_loop`: initial connect plus subscribe,
then the loop. -/
def listenLoopRun (reg : Registry) (script : List PollEvent) : List TraceItem :=
  TraceItem.connect listenChannels :: listenLoopTrace reg script

/-! ## Thread model for `start_listening` / `stop_listening`

The listen thread interleaves with the caller of `stop_listening`. Program
points of `_listen_loop`: the `while self.running` check, and the inner
`while self.connection.notifies` drain (which does not consult `running`).
One step of the machine is one unit of time: the check, or handling one
queued notification. `stop_listening` sets `running = False` and then calls
`self.listen_thread.join(timeout=5)`, i.e. waits a bounded amount of time
for the thread — modelled as a bounded number of steps — and returns even
if the thread is still alive. -/

/-- Program counter of the listen thread. -/
inductive ThreadPC where
  | outerCheck
  | draining
  | finished
deriving DecidableEq, Repr

/-- Shared state: the `running` flag, the pending `connection.notifies`
buffer, the thread position, and the emits and logs performed so far. -/
structure SysState where
  running : Bool
  notifies : List Notification
  pc : ThreadPC
  pushes : List Push
  logs : List LogEntry
  registry : Registry

/-- One step of the listen thread. At `outerCheck` the `running` flag is
consulted; at `draining` one notification is popped and handled without
consulting `running`, and an empty buffer returns to the outer check. -/
def threadStep (s : SysState) : SysState :=
  match s.pc with
  | .finished => s
  | .outerCheck =>
      if s.running then { s with pc := .draining } else { s with pc := .finished }
  | .draining =>
      match s.notifies with
      | [] => { s with pc := .outerCheck }
      | n :: rest =>
          let handled := handleNotification s.registry n
          { s with notifies := rest, pc := .draining,
                   pushes := s.pushes ++ handled.1, logs := s.logs ++ handled.2 }

/-- Iterated thread steps. -/
def runSteps : Nat → SysState → SysState
  | 0, s => s
  | k + 1, s => runSteps k (threadStep s)

/-- `join` with a timeout: let the thread run, but give up after at most
`joinBound` steps and return whatever state the system is then in. -/
def joinWithTimeout : Nat → SysState → SysState
  | 0, s => s
  | k + 1, s => if s.pc = ThreadPC.finished then s else joinWithTimeout k (threadStep s)

/-- `stop_listening`: set `self.running = False`, then
`self.listen_thread.join(timeout=5)` — a bounded wait. -/
def stopListening (joinBound : Nat) (s : SysState) : SysState :=
  joinWithTimeout joinBound { s with running := false }

/-- Number of thread steps the stopped thread still needs before
terminating: drain the pending buffer, observe the empty buffer, then fail
the outer `running` check. -/
def stepsNeeded (s : SysState) : Nat :=
  match s.pc with
  | .finished => 0
  | .outerCheck => 1
  | .draining => s.notifies.length + 2

/-! ## Interaction store: `update_interaction_status`

`MultiTenantInteractionManager.update_interaction_status` runs a single
`UPDATE ... SET status = %s, updated_at = CURRENT_TIMESTAMP WHERE id = %s`,
commits, and returns `rows_affected > 0`; on any exception it rolls the
transaction back and re-raises. The table keyed by unique `id` is a partial
map; `CURRENT_TIMESTAMP` is the explicit `now` argument; whether the
execute raises is an explicit oracle. -/

/-- The columns of an `eng_interactions` row that this development needs. -/
structure InteractionRecord where
  channel : String
  status : String
  createdAt : Nat
  updatedAt : Nat
  text : String
deriving DecidableEq, Repr

/-- The tenant's `eng_interactions` table, keyed by unique id. -/
abbrev Store := Nat → Option InteractionRecord

/-- The exception re-raised by the update path. -/
inductive DbError where
  | updateFailed (msg : String)
deriving DecidableEq, Repr

/-- `update_interaction_status`: on a failing execute, roll back (store
unchanged) and raise; otherwise update the matching row, stamping
`updated_at`, and return whether a row was affected. -/
def updateInteractionStatus (st : Store) (execFails : Bool) (now : Nat)
    (interactionId : Nat) (newStatus : String) : Store × Except DbError Bool :=
  if execFails then
    (st, Except.error (DbError.updateFailed "Failed to update interaction status"))
  else
    match st interactionId with
    | some r =>
        (fun j => if j = interactionId
                  then some { r with status := newStatus, updatedAt := now }
                  else st j,
         Except.ok true)
    | none => (st, Except.ok false)

/-! ## Tenant schema routing

`MultiTenantInteractionManager._get_schema_name` maps the configured
company code through a fixed dictionary, defaulting to `company_a` via
`schema_mapping.get(self.company_code, 'company_a')`; every query string
then interpolates the resulting schema name. -/

/-- The fixed `schema_mapping` dictionary. -/
def schemaMapping : FieldMap :=
  [("COMP_A", "company_a"), ("COMP_B", "company_b"), ("COMP_C", "company_c")]

/-- `_get_schema_name`: dictionary lookup with default `company_a`. -/
def getSchemaName (companyCode : String) : String :=
  match FieldMap.get schemaMapping companyCode with
  | some schema => schema
  | none => "company_a"

/-- The schema-qualified table name every Interaction Store query uses. -/
def interactionsTableFor (companyCode : String) : String :=
  getSchemaName companyCode ++ ".eng_interactions"

/-- The known company codes, the keys of `schema_mapping`. -/
def knownCompanyCodes : List String := schemaMapping.map Prod.fst

/-! ## Helper lemmas -/

theorem processNotifications_append (reg : Registry) (xs ys : List Notification) :
    processNotifications reg (xs ++ ys)
      = ((processNotifications reg xs).1 ++ (processNotifications reg ys).1,
         (processNotifications reg xs).2 ++ (processNotifications reg ys).2) := by
  induction xs with
  | nil => simp [processNotifications]
  | cons n rest ih => simp [processNotifications, ih]

theorem listenLoopTrace_append (reg : Registry) (a b : List PollEvent) :
    listenLoopTrace reg (a ++ b) = listenLoopTrace reg a ++ listenLoopTrace reg b := by
  induction a with
  | nil => simp [listenLoopTrace]
  | cons e rest ih =>
      cases e with
      | notes ns => simp [listenLoopTrace, ih]
      | error msg => simp [listenLoopTrace, ih]

theorem handleNotification_routed (reg : Registry) (fields : FieldMap)
    (t : String) (s : Sink) (ch : String)
    (h1 : companyField fields = some t) (h2 : reg t = some s) :
    handleNotification reg ⟨ch, Payload.object fields⟩
      = match eventNameFor ch with
        | some e => ([⟨s, e, fields⟩], [LogEntry.routed e t])
        | none => ([], []) := by
  by_cases hic : ch = "interaction_changes" <;>
    by_cases hsc : ch = "status_changes" <;>
      simp [handleNotification, h1, h2, eventNameFor, hic, hsc]

theorem sink_of_push (reg : Registry) (n : Notification) (p : Push)
    (hp : p ∈ (handleNotification reg n).1) :
    ∃ t, companyOf n = some t ∧ reg t = some p.sink := by
  obtain ⟨ch, payload⟩ := n
  cases payload with
  | malformed raw => simp [handleNotification] at hp
  | object fields =>
      cases hcf : companyField fields with
      | none => simp [handleNotification, hcf] at hp
      | some t =>
          cases hr : reg t with
          | none => simp [handleNotification, hcf, hr] at hp
          | some b =>
              refine ⟨t, by simp [companyOf, hcf], ?_⟩
              by_cases hic : ch = "interaction_changes" <;>
                by_cases hsc : ch = "status_changes" <;>
                  simp [handleNotification, hcf, hr, hic, hsc] at hp <;>
                    simp [hp, hr]

theorem pushesTo_handle (reg : Registry) (t2 : String) (s2 : Sink)
    (howner : ∀ t, reg t = some s2 → t = t2) (hreg : reg t2 = some s2)
    (n : Notification) :
    pushesTo s2 (handleNotification reg n).1
      = if relevantTo t2 n then (handleNotification reg n).1 else [] := by
  obtain ⟨ch, payload⟩ := n
  cases payload with
  | malformed raw => simp [handleNotification, pushesTo, relevantTo, companyOf]
  | object fields =>
      cases hcf : companyField fields with
      | none => simp [handleNotification, pushesTo, relevantTo, companyOf, hcf]
      | some t =>
          cases hr : reg t with
          | none =>
              simp [handleNotification, pushesTo, relevantTo, companyOf, hcf, hr]
          | some b =>
              by_cases ht : t = t2
              · subst ht
                have hb : b = s2 := by
                  have := hr.symm.trans hreg
                  exact (Option.some.injEq b s2 ▸ this)
                subst hb
                by_cases hic : ch = "interaction_changes" <;>
                  by_cases hsc : ch = "status_changes" <;>
                    simp [handleNotification, pushesTo, relevantTo, companyOf,
                          hcf, hr, hic, hsc]
              · have hb : b ≠ s2 := fun hbs => ht (howner t (hbs ▸ hr))
                by_cases hic : ch = "interaction_changes" <;>
                  by_cases hsc : ch = "status_changes" <;>
                    simp [handleNotification, pushesTo, relevantTo, companyOf,
                          hcf, hr, hic, hsc, hb, ht]

theorem pushesTo_process (reg : Registry) (t2 : String) (s2 : Sink)
    (howner : ∀ t, reg t = some s2 → t = t2) (hreg : reg t2 = some s2)
    (ns : List Notification) :
    pushesTo s2 (processNotifications reg ns).1
      = (processNotifications reg (ns.filter (relevantTo t2))).1 := by
  induction ns with
  | nil => simp [processNotifications, pushesTo]
  | cons n rest ih =>
      have hsplit : pushesTo s2 (processNotifications reg (n :: rest)).1
          = pushesTo s2 (handleNotification reg n).1
              ++ pushesTo s2 (processNotifications reg rest).1 := by
        simp [processNotifications, pushesTo, List.filter_append]
      rw [hsplit, pushesTo_handle reg t2 s2 howner hreg n]
      by_cases hrel : relevantTo t2 n
      · simp [hrel, List.filter_cons, processNotifications, ih]
      · simp [hrel, List.filter_cons, ih]

theorem threadStep_finished (s : SysState) (h : s.pc = ThreadPC.finished) :
    threadStep s = s := by
  obtain ⟨run, nots, pc, pu, lo, reg⟩ := s
  simp only at h
  subst h
  rfl

theorem runSteps_finished (k : Nat) (s : SysState) (h : s.pc = ThreadPC.finished) :
    runSteps k s = s := by
  induction k with
  | zero => rfl
  | succ m ih => simp [runSteps, threadStep_finished s h, ih]

theorem joinWithTimeout_finished (k : Nat) (s : SysState)
    (h : s.pc = ThreadPC.finished) : joinWithTimeout k s = s := by
  cases k with
  | zero => rfl
  | succ m => simp [joinWithTimeout, h]

theorem join_terminates :
    ∀ (m : Nat) (s : SysState), s.running = false → stepsNeeded s ≤ m →
      (joinWithTimeout m s).pc = ThreadPC.finished := by
  intro m
  induction m with
  | zero =>
      intro s hrun hle
      cases hpc : s.pc with
      | finished => simp [joinWithTimeout, hpc]
      | outerCheck => simp [stepsNeeded, hpc] at hle
      | draining => simp [stepsNeeded, hpc] at hle
  | succ k ih =>
      intro s hrun hle
      cases hpc : s.pc with
      | finished => simp [joinWithTimeout, hpc]
      | outerCheck =>
          have hstep : threadStep s = { s with pc := ThreadPC.finished } := by
            obtain ⟨run, nots, pc, pu, lo, reg⟩ := s
            simp only at hpc hrun
            subst hpc; subst hrun
            rfl
          have : (joinWithTimeout (k + 1) s) = joinWithTimeout k (threadStep s) := by
            simp [joinWithTimeout, hpc]
          have hfin : ({ s with pc := ThreadPC.finished } : SysState).pc
              = ThreadPC.finished := rfl
          rw [this, hstep, joinWithTimeout_finished k _ hfin]
      | draining =>
          have hrw : (joinWithTimeout (k + 1) s) = joinWithTimeout k (threadStep s) := by
            simp [joinWithTimeout, hpc]
          rw [hrw]
          cases hns : s.notifies with
          | nil =>
              have hstep : threadStep s = { s with pc := ThreadPC.outerCheck } := by
                obtain ⟨run, nots, pc, pu, lo, reg⟩ := s
                simp only at hpc hns
                subst hpc; subst hns
                rfl
              refine ih _ ?_ ?_
              · rw [hstep]; exact hrun
              · rw [hstep]
                have : stepsNeeded s ≤ k + 1 := hle
                simp only [stepsNeeded, hpc, hns, List.length_nil] at this
                simp only [stepsNeeded]
                omega
          | cons hd tl =>
              have hstep : threadStep s
                  = ⟨s.running, tl, ThreadPC.draining,
                     s.pushes ++ (handleNotification s.registry hd).1,
                     s.logs ++ (handleNotification s.registry hd).2, s.registry⟩ := by
                obtain ⟨run, nots, pc, pu, lo, reg⟩ := s
                simp only at hpc hns
                subst hpc; subst hns
                rfl
              refine ih _ ?_ ?_
              · rw [hstep]; exact hrun
              · rw [hstep]
                have : stepsNeeded s ≤ k + 1 := hle
                simp only [stepsNeeded, hpc, hns, List.length_cons] at this
                simp only [stepsNeeded]
                omega

/-! ## Claims -/

/-- Registry with one backend, used by the stop-liveness counterexample. -/
def c1Registry : Registry := registerBackend emptyRegistry "COMP_A" "sinkA"

/-- A well-formed notification for the registered tenant. -/
def c1Note : Notification :=
  ⟨"interaction_changes", Payload.object [("company", "COMP_A")]⟩

/-- A state in which listening has been started and the thread is draining
a backlog of eight queued notifications. -/
def c1State : SysState :=
  ⟨true, List.replicate 8 c1Note, ThreadPC.draining, [], [], c1Registry⟩

/-- C1 counterexample: `stop_listening` joins the listen thread with
`timeout=5`, a bounded wait, while the inner drain loop of `_listen_loop`
handles one queued notification per time step without consulting
`running`. With eight notifications queued and a join budget of five
steps, `stop_listening` returns while the thread is still alive, and the
very next thread step performs a further push — refuting the claim that
`stop()` returns only after the thread has terminated and that no push
occurs afterwards. -/
theorem stop_listening_join_timeout_counterexample :
    (stopListening 5 c1State).pc ≠ ThreadPC.finished ∧
    (runSteps 1 (stopListening 5 c1State)).pushes.length
      = (stopListening 5 c1State).pushes.length + 1 := by
  exact ⟨by decide, by decide⟩

/-- C1 amended: `stop_listening` clears `running` and then joins the
listen thread with a bounded timeout (`join(timeout=5)`); whenever the
remaining work of the thread — draining the pending buffer, observing it
empty, and failing the outer `running` check — fits inside the join
budget, `stop_listening` returns only after the thread has terminated and
afterwards no further thread step changes the state, so no further push
occurs; when the backlog exceeds the budget, `stop_listening` may return
while pushes continue (see the counterexample). -/
theorem stop_listening_terminates_within_join_budget (s : SysState)
    (joinBound : Nat) (h : stepsNeeded s ≤ joinBound) :
    (stopListening joinBound s).pc = ThreadPC.finished ∧
    ∀ k, runSteps k (stopListening joinBound s) = stopListening joinBound s := by
  have hrun : ({ s with running := false } : SysState).running = false := rfl
  have hsteps : stepsNeeded ({ s with running := false } : SysState)
      = stepsNeeded s := rfl
  have hfin : (stopListening joinBound s).pc = ThreadPC.finished := by
    unfold stopListening
    exact join_terminates joinBound _ hrun (by rw [hsteps]; exact h)
  exact ⟨hfin, fun k => runSteps_finished k _ hfin⟩

/-- Witness for the amended C1 theorem at a join budget covering the
backlog of `c1State`. -/
theorem stop_listening_terminates_witness :
    (stopListening 10 c1State).pc = ThreadPC.finished :=
  (stop_listening_terminates_within_join_budget c1State 10 (by decide)).1

/-- C2: any exception raised out of the listen loop while the system is
running does not terminate the pipeline: the loop sleeps the 5-second
backoff, reconnects, re-subscribes to the full channel set, and continues
with the registry untouched, so a valid notification arriving afterwards
is still delivered to a sink that was registered before the failure. -/
theorem listen_loop_reconnects_after_error (reg : Registry) (msg : String)
    (s1 s2 : List PollEvent) (fields : FieldMap) (t : String) (sink : Sink)
    (h1 : companyField fields = some t) (h2 : reg t = some sink) :
    listenLoopTrace reg (s1 ++ PollEvent.error msg :: s2)
      = listenLoopTrace reg s1
          ++ TraceItem.backoff 5 :: TraceItem.connect listenChannels
          :: listenLoopTrace reg s2 ∧
    listenLoopTrace reg (s1 ++ PollEvent.error msg :: (s2
          ++ [PollEvent.notes [⟨"interaction_changes", Payload.object fields⟩]]))
      = listenLoopTrace reg s1
          ++ TraceItem.backoff 5 :: TraceItem.connect listenChannels
          :: (listenLoopTrace reg s2
              ++ [TraceItem.push ⟨sink, "new_engagement", fields⟩,
                  TraceItem.log (LogEntry.routed "new_engagement" t)]) := by
  have hn := handleNotification_routed reg fields t sink "interaction_changes" h1 h2
  simp only [eventNameFor, if_pos rfl] at hn
  constructor
  · rw [listenLoopTrace_append]
    simp [listenLoopTrace]
  · rw [listenLoopTrace_append]
    simp [listenLoopTrace, listenLoopTrace_append, pollTrace, notificationTrace, hn]

/-- Witness for C2 at a concrete registry, scripts and payload. -/
theorem listen_loop_reconnects_witness :
    listenLoopTrace (registerBackend emptyRegistry "COMP_A" "sA")
        ([PollEvent.notes []] ++ PollEvent.error "boom" :: [PollEvent.notes []])
      = listenLoopTrace (registerBackend emptyRegistry "COMP_A" "sA")
          [PollEvent.notes []]
          ++ TraceItem.backoff 5 :: TraceItem.connect listenChannels
          :: listenLoopTrace (registerBackend emptyRegistry "COMP_A" "sA")
              [PollEvent.notes []] :=
  (listen_loop_reconnects_after_error (registerBackend emptyRegistry "COMP_A" "sA")
     "boom" [PollEvent.notes []] [PollEvent.notes []]
     [("company", "COMP_A")] "COMP_A" "sA" (by decide) (by decide)).1

/-- Registry obtained by registering two distinct sinks for the same
tenant, one after the other. -/
def c3Registry : Registry :=
  registerBackend (registerBackend emptyRegistry "COMP_A" "sink1") "COMP_A" "sink2"

/-- C3 counterexample: `backend_connections` is a dict from company code
to a single backend handle, so registering a second sink for the same
tenant replaces the first instead of accumulating a set: after registering
`sink1` and then `sink2` for `COMP_A`, the sink set for `COMP_A` is
exactly `[sink2]`, and dispatching a decoded event for `COMP_A` pushes it
to `sink2` only — refuting the claim that multiple sinks may be registered
simultaneously and all of them receive the event. -/
theorem register_backend_replaces_counterexample :
    sinksFor c3Registry "COMP_A" = ["sink2"] ∧
    (handleNotification c3Registry
        ⟨"interaction_changes", Payload.object [("company", "COMP_A")]⟩).1
      = [⟨"sink2", "new_engagement", [("company", "COMP_A")]⟩] := by
  exact ⟨by decide, by decide⟩

/-- C3 amended: the subscriber registry maps each tenant id to at most one
sink; when a sink is registered for the tenant of a decoded event and the
channel is recognized, dispatch pushes the event to exactly the sinks in
that singleton set. -/
theorem registry_at_most_one_sink (reg : Registry) (t : String)
    (fields : FieldMap) (ch : String) (s : Sink) (e : String)
    (h : companyField fields = some t) (hs : reg t = some s)
    (he : eventNameFor ch = some e) :
    sinksFor reg t = [s] ∧
    (sinksFor reg t).length ≤ 1 ∧
    (handleNotification reg ⟨ch, Payload.object fields⟩).1 = [Push.mk s e fields] := by
  refine ⟨by simp [sinksFor, hs], by simp [sinksFor, hs], ?_⟩
  rw [handleNotification_routed reg fields t s ch h hs, he]

/-- Witness for the amended C3 theorem. -/
theorem registry_at_most_one_sink_witness :
    sinksFor (registerBackend emptyRegistry "COMP_B" "sB") "COMP_B" = ["sB"] ∧
    (sinksFor (registerBackend emptyRegistry "COMP_B" "sB") "COMP_B").length ≤ 1 ∧
    (handleNotification (registerBackend emptyRegistry "COMP_B" "sB")
        ⟨"status_changes", Payload.object [("company", "COMP_B")]⟩).1
      = [Push.mk "sB" "status_update" [("company", "COMP_B")]] :=
  registry_at_most_one_sink (registerBackend emptyRegistry "COMP_B" "sB")
    "COMP_B" [("company", "COMP_B")] "status_changes" "sB" "status_update"
    (by decide) (by decide) (by decide)

/-- C10: the registry holds at most one sink per tenant, and
`register_backend` for a tenant that already has a sink silently replaces
it, so a subsequent decoded event for that tenant is routed only to the
most recently registered sink. -/
theorem register_backend_last_writer_wins (reg : Registry) (t : String)
    (s1 s2 : Sink) (fields : FieldMap) (h : companyField fields = some t) :
    sinksFor (registerBackend (registerBackend reg t s1) t s2) t = [s2] ∧
    (handleNotification (registerBackend (registerBackend reg t s1) t s2)
        ⟨"interaction_changes", Payload.object fields⟩).1
      = [⟨s2, "new_engagement", fields⟩] ∧
    ∀ (r : Registry) (c : String), (sinksFor r c).length ≤ 1 := by
  have hs : registerBackend (registerBackend reg t s1) t s2 t = some s2 := by
    simp [registerBackend]
  refine ⟨by simp [sinksFor, hs], ?_, ?_⟩
  · have he : eventNameFor "interaction_changes" = some "new_engagement" := by decide
    rw [handleNotification_routed (registerBackend (registerBackend reg t s1) t s2)
      fields t s2 "interaction_changes" h hs, he]
  · intro r c
    cases hrc : r c <;> simp [sinksFor, hrc]

/-- Witness for C10. -/
theorem register_backend_last_writer_wins_witness :
    sinksFor (registerBackend (registerBackend emptyRegistry "COMP_A" "old")
        "COMP_A" "new") "COMP_A" = ["new"] ∧
    (handleNotification (registerBackend (registerBackend emptyRegistry "COMP_A" "old")
        "COMP_A" "new")
        ⟨"interaction_changes", Payload.object [("company", "COMP_A")]⟩).1
      = [⟨"new", "new_engagement", [("company", "COMP_A")]⟩] ∧
    ∀ (r : Registry) (c : String), (sinksFor r c).length ≤ 1 :=
  register_backend_last_writer_wins emptyRegistry "COMP_A" "old" "new"
    [("company", "COMP_A")] (by decide)

/-- C4 counterexample: `_get_schema_name` looks the company code up in the
fixed `schema_mapping` dictionary with default `company_a`, so a company
code outside the known tenant set is not rejected: it routes all
Interaction Store queries to the schema of tenant COMP_A — refuting the
claim that an unvalidated code does not route queries to any schema. -/
theorem schema_name_fallback_counterexample :
    FieldMap.get schemaMapping "COMP_X" = none ∧
    getSchemaName "COMP_X" = "company_a" ∧
    getSchemaName "COMP_X" = getSchemaName "COMP_A" ∧
    interactionsTableFor "COMP_X" = "company_a.eng_interactions" := by
  exact ⟨by decide, by decide, by decide, by decide⟩

/-- C4 amended: the schema name used by every Interaction Store query is
always one of the three fixed schemas of `schema_mapping` — it is never
interpolated from the raw company code — but a company code outside the
known set is not rejected: it silently falls back to `company_a`, the
schema of tenant COMP_A. -/
theorem schema_name_always_known (c : String)
    (h : FieldMap.get schemaMapping c = none) :
    (∀ code, getSchemaName code ∈ ["company_a", "company_b", "company_c"]) ∧
    getSchemaName c = "company_a" ∧
    interactionsTableFor c = "company_a.eng_interactions" := by
  refine ⟨?_, ?_, ?_⟩
  · intro code
    by_cases hA : ("COMP_A" : String) = code <;>
      by_cases hB : ("COMP_B" : String) = code <;>
        by_cases hC : ("COMP_C" : String) = code <;>
          simp [getSchemaName, schemaMapping, FieldMap.get, hA, hB, hC]
  · simp [getSchemaName, h]
  · simp [interactionsTableFor, getSchemaName, h]

/-- Witness for the amended C4 theorem at the unknown code COMP_X. -/
theorem schema_name_always_known_witness :
    getSchemaName "COMP_X" = "company_a" ∧
    interactionsTableFor "COMP_X" = "company_a.eng_interactions" :=
  (schema_name_always_known "COMP_X" (by decide)).2

/-- The decode failure `_handle_notification` records for a notification,
if any: `JSONDecodeError` for syntactically malformed payloads, the
missing-company warning for well-formed payloads whose company code is
absent or empty. -/
def decodeErrorOf (n : Notification) : Option LogEntry :=
  match n.payload with
  | .malformed raw => some (LogEntry.invalidJson raw)
  | .object fields =>
      match companyField fields with
      | none => some LogEntry.missingCompany
      | some _ => none

/-- C5: a notification whose payload is malformed, or well-formed but
missing the tenant field, produces exactly one recorded decode failure
and zero sink pushes; handling is total (the embedding of the fully
caught `_handle_notification` body), so nothing propagates out of the
dispatcher loop and the remaining notifications are processed exactly as
they would have been on their own. -/
theorem decode_failure_recorded_no_push (reg : Registry) (n : Notification)
    (rest : List Notification) (e : LogEntry) (h : decodeErrorOf n = some e) :
    handleNotification reg n = ([], [e]) ∧
    processNotifications reg (n :: rest)
      = ((processNotifications reg rest).1,
         e :: (processNotifications reg rest).2) := by
  have h1 : handleNotification reg n = ([], [e]) := by
    obtain ⟨ch, payload⟩ := n
    cases payload with
    | malformed raw =>
        simp only [decodeErrorOf, Option.some.injEq] at h
        simp [handleNotification, ← h]
    | object fields =>
        cases hcf : companyField fields with
        | none =>
            simp only [decodeErrorOf, hcf, Option.some.injEq] at h
            simp [handleNotification, hcf, ← h]
        | some t => simp [decodeErrorOf, hcf] at h
  exact ⟨h1, by simp [processNotifications, h1]⟩

/-- Witness for C5: a malformed payload followed by a well-formed one. -/
theorem decode_failure_recorded_witness :
    handleNotification emptyRegistry
        ⟨"interaction_changes", Payload.malformed "oops"⟩
      = ([], [LogEntry.invalidJson "oops"]) ∧
    processNotifications emptyRegistry
        (⟨"interaction_changes", Payload.malformed "oops"⟩
          :: [⟨"interaction_changes", Payload.object [("company", "COMP_A")]⟩])
      = ((processNotifications emptyRegistry
            [⟨"interaction_changes", Payload.object [("company", "COMP_A")]⟩]).1,
         LogEntry.invalidJson "oops"
           :: (processNotifications emptyRegistry
                [⟨"interaction_changes", Payload.object [("company", "COMP_A")]⟩]).2) :=
  decode_failure_recorded_no_push emptyRegistry
    ⟨"interaction_changes", Payload.malformed "oops"⟩
    [⟨"interaction_changes", Payload.object [("company", "COMP_A")]⟩]
    (LogEntry.invalidJson "oops") (by decide)

/-- C6: a well-formed notification carrying tenant `t1` is pushed to the
sink registered for `t1` and to no sink registered for a different tenant
`t2`; moreover the pushes a sink owned solely by `t2` receives from a
whole run depend only on the sub-sequence of notifications carrying
tenant `t2`, so two runs differing only in other tenants' events produce
identical pushes to that sink. -/
theorem tenant_isolation_dispatch (reg : Registry) (t1 t2 : String)
    (s1 s2 : Sink) (fields : FieldMap) (ns ns2 : List Notification)
    (h1 : companyField fields = some t1) (hr1 : reg t1 = some s1)
    (hr2 : reg t2 = some s2) (howner : ∀ t, reg t = some s2 → t = t2)
    (hne : t2 ≠ t1)
    (hfilter : ns.filter (relevantTo t2) = ns2.filter (relevantTo t2)) :
    (handleNotification reg ⟨"interaction_changes", Payload.object fields⟩).1
      = [⟨s1, "new_engagement", fields⟩] ∧
    pushesTo s2
        (handleNotification reg ⟨"interaction_changes", Payload.object fields⟩).1
      = [] ∧
    pushesTo s2 (processNotifications reg ns).1
      = pushesTo s2 (processNotifications reg ns2).1 := by
  have he : eventNameFor "interaction_changes" = some "new_engagement" := by decide
  have hn : (handleNotification reg
      ⟨"interaction_changes", Payload.object fields⟩).1
      = [⟨s1, "new_engagement", fields⟩] := by
    rw [handleNotification_routed reg fields t1 s1 "interaction_changes" h1 hr1, he]
  have hs12 : s1 ≠ s2 := by
    intro hcontra
    exact hne (howner t1 (hcontra ▸ hr1)).symm
  refine ⟨hn, ?_, ?_⟩
  · rw [hn]
    simp [pushesTo, hs12]
  · rw [pushesTo_process reg t2 s2 howner hr2 ns,
        pushesTo_process reg t2 s2 howner hr2 ns2, hfilter]

/-- Registry with one sink for each of two tenants, for the C6 witness. -/
def c6Registry : Registry :=
  registerBackend (registerBackend emptyRegistry "COMP_A" "sA") "COMP_B" "sB"

/-- A well-formed notification for tenant COMP_B. -/
def c6NoteB : Notification :=
  ⟨"status_changes", Payload.object [("company", "COMP_B")]⟩

/-- A well-formed notification for tenant COMP_A. -/
def c6NoteA : Notification :=
  ⟨"interaction_changes", Payload.object [("company", "COMP_A")]⟩

/-- Witness for C6: the runs `[c6NoteB, c6NoteA]` and `[c6NoteB]` differ
only in an event of tenant COMP_A, so the COMP_B sink receives identical
pushes. -/
theorem tenant_isolation_dispatch_witness :
    (handleNotification c6Registry
        ⟨"interaction_changes", Payload.object [("company", "COMP_A")]⟩).1
      = [⟨"sA", "new_engagement", [("company", "COMP_A")]⟩] ∧
    pushesTo "sB"
        (handleNotification c6Registry
          ⟨"interaction_changes", Payload.object [("company", "COMP_A")]⟩).1
      = [] ∧
    pushesTo "sB" (processNotifications c6Registry [c6NoteB, c6NoteA]).1
      = pushesTo "sB" (processNotifications c6Registry [c6NoteB]).1 :=
  tenant_isolation_dispatch c6Registry "COMP_A" "COMP_B" "sA" "sB"
    [("company", "COMP_A")] [c6NoteB, c6NoteA] [c6NoteB]
    (by decide) (by decide) (by decide)
    (by
      intro t ht
      by_cases hB : t = "COMP_B"
      · exact hB
      · by_cases hA : t = "COMP_A"
        · subst hA
          rw [show c6Registry "COMP_A" = some "sA" from by decide] at ht
          exact absurd (Option.some.inj ht) (by decide)
        · rw [show (c6Registry t = if t = "COMP_B" then some "sB"
                else if t = "COMP_A" then some "sA" else none) from rfl,
              if_neg hB, if_neg hA] at ht
          exact Option.noConfusion ht)
    (by decide) (by decide)

/-- C7: decodable notifications are dispatched in arrival order: for a
queue containing `N1` before `N2`, both decodable for a tenant whose sink
was registered beforehand, the push stream contains the push for `N1`
strictly before the push for `N2`. -/
theorem dispatch_fifo_order (reg : Registry) (t : String) (s : Sink)
    (f1 f2 : FieldMap) (ch1 ch2 e1 e2 : String)
    (pre mid post : List Notification)
    (hreg : reg t = some s)
    (h1 : companyField f1 = some t) (h2 : companyField f2 = some t)
    (he1 : eventNameFor ch1 = some e1) (he2 : eventNameFor ch2 = some e2) :
    (processNotifications reg
        (pre ++ ⟨ch1, Payload.object f1⟩ :: mid
             ++ ⟨ch2, Payload.object f2⟩ :: post)).1
      = (processNotifications reg pre).1
          ++ ⟨s, e1, f1⟩ :: ((processNotifications reg mid).1
          ++ ⟨s, e2, f2⟩ :: (processNotifications reg post).1) := by
  have hn1 : (handleNotification reg ⟨ch1, Payload.object f1⟩).1 = [⟨s, e1, f1⟩] := by
    rw [handleNotification_routed reg f1 t s ch1 h1 hreg, he1]
  have hn2 : (handleNotification reg ⟨ch2, Payload.object f2⟩).1 = [⟨s, e2, f2⟩] := by
    rw [handleNotification_routed reg f2 t s ch2 h2 hreg, he2]
  simp [processNotifications_append, processNotifications, hn1, hn2]

/-- Witness for C7 with two notifications around non-empty context. -/
theorem dispatch_fifo_order_witness :
    (processNotifications (registerBackend emptyRegistry "COMP_A" "sA")
        ([⟨"ignored", Payload.malformed "x"⟩]
          ++ ⟨"interaction_changes", Payload.object [("company", "COMP_A")]⟩
          :: [] ++ ⟨"status_changes", Payload.object [("company", "COMP_A")]⟩
          :: [])).1
      = (processNotifications (registerBackend emptyRegistry "COMP_A" "sA")
          [⟨"ignored", Payload.malformed "x"⟩]).1
          ++ ⟨"sA", "new_engagement", [("company", "COMP_A")]⟩
          :: ((processNotifications (registerBackend emptyRegistry "COMP_A" "sA") []).1
          ++ ⟨"sA", "status_update", [("company", "COMP_A")]⟩
          :: (processNotifications (registerBackend emptyRegistry "COMP_A" "sA") []).1) :=
  dispatch_fifo_order (registerBackend emptyRegistry "COMP_A" "sA") "COMP_A" "sA"
    [("company", "COMP_A")] [("company", "COMP_A")]
    "interaction_changes" "status_changes" "new_engagement" "status_update"
    [⟨"ignored", Payload.malformed "x"⟩] [] []
    (by decide) (by decide) (by decide) (by decide) (by decide)

/-- C8: registering the same sink twice for a tenant and then
unregistering once leaves the tenant with zero registered sinks, and
unregistering a tenant with no registered sink leaves the registry
untouched (a safe no-op, mirroring the membership guard around `del`). -/
theorem register_unregister_semantics (reg reg2 : Registry) (t : String)
    (s : Sink) (h : reg2 t = none) :
    sinksFor (unregisterBackend
        (registerBackend (registerBackend reg t s) t s) t) t = [] ∧
    unregisterBackend reg2 t = reg2 := by
  constructor
  · simp [unregisterBackend, registerBackend, sinksFor]
  · simp [unregisterBackend, h]

/-- Witness for C8. -/
theorem register_unregister_witness :
    sinksFor (unregisterBackend
        (registerBackend (registerBackend emptyRegistry "COMP_A" "s")
          "COMP_A" "s") "COMP_A") "COMP_A" = [] ∧
    unregisterBackend emptyRegistry "COMP_A" = emptyRegistry :=
  register_unregister_semantics emptyRegistry emptyRegistry "COMP_A" "s" rfl

/-- C9: with a succeeding execute, `update_interaction_status` returns
true exactly when a row with the given id exists — it then overwrites the
status and stamps `updated_at`, leaving every other row untouched — and
returns false leaving the store unchanged when no such row exists; when
the execute raises, the transaction is rolled back (store unchanged) and
the exception is re-raised instead of returning a Boolean. -/
theorem update_interaction_status_spec (st : Store) (now interactionId : Nat)
    (newStatus : String) (r : InteractionRecord)
    (h : st interactionId = some r) :
    ((updateInteractionStatus st false now interactionId newStatus).2
       = Except.ok true) ∧
    ((updateInteractionStatus st false now interactionId newStatus).1 interactionId
       = some { r with status := newStatus, updatedAt := now }) ∧
    (∀ j, j ≠ interactionId →
       (updateInteractionStatus st false now interactionId newStatus).1 j = st j) ∧
    (∀ st2 : Store, st2 interactionId = none →
       updateInteractionStatus st2 false now interactionId newStatus
         = (st2, Except.ok false)) ∧
    (∀ st3 : Store, updateInteractionStatus st3 true now interactionId newStatus
       = (st3, Except.error
            (DbError.updateFailed "Failed to update interaction status"))) := by
  refine ⟨?_, ?_, ?_, ?_, ?_⟩
  · simp [updateInteractionStatus, h]
  · simp [updateInteractionStatus, h]
  · intro j hj
    simp [updateInteractionStatus, h, hj]
  · intro st2 h2
    simp [updateInteractionStatus, h2]
  · intro st3
    simp [updateInteractionStatus]

/-- A one-row store for the C9 witness. -/
def c9Record : InteractionRecord := ⟨"whatsapp", "new", 0, 0, "help"⟩

/-- The store mapping id 42 to `c9Record`. -/
def c9Store : Store := fun j => if j = 42 then some c9Record else none

/-- Witness for C9: updating row 42 succeeds, stamps the timestamp, and
returns true. -/
theorem update_interaction_status_witness :
    ((updateInteractionStatus c9Store false 7 42 "resolved").2 = Except.ok true) ∧
    ((updateInteractionStatus c9Store false 7 42 "resolved").1 42
       = some { c9Record with status := "resolved", updatedAt := 7 }) :=
  have hall := update_interaction_status_spec c9Store 7 42 "resolved" c9Record rfl
  ⟨hall.1, hall.2.1⟩

end NotifyPostgres
